import Mathlib

/-!
# Verification of the sol2seq AST-to-sequence-diagram pipeline

Shallow embedding of the sol2seq Rust crate (src/ast.rs, src/diagram.rs,
src/types.rs, src/utils.rs).  JSON values (`serde_json::Value`) are modelled
by the inductive `Json`; `serde_json` string/array/object accessors are
modelled by the `Json.*` functions below.  Rust `String` operations
(`to_lowercase`, `starts_with`, `ends_with`, `contains`) are modelled by
list-of-character functions (ASCII lowercasing, which is what all inputs in
scope use).

Rust's `std::collections::HashMap`/`HashSet` have an *unspecified, per-run
randomized* iteration order.  The model therefore keeps those collections as
insertion-ordered duplicate-free association lists (which fixes membership,
the only thing extraction observes), and the renderer additionally receives
the iteration order of the `contracts` map as an explicit argument wherever
the Rust code iterates that map.
-/

namespace Sol2Seq

set_option maxRecDepth 8192

/-- Model of `serde_json::Value`.  Numbers are restricted to naturals: the
    source only reads numbers through `as_u64`. Object member lists stand for
    the parsed map contents: keys are unique and appear in the map's
    iteration order. -/
inductive Json where
  | null
  | bool (b : Bool)
  | num (n : Nat)
  | str (s : String)
  | arr (elems : List Json)
  | obj (members : List (String × Json))

namespace Json

/-- First value stored under a key in an object member list
    (`serde_json::Map::get`; keys are unique after parsing). -/
def lookupField : List (String × Json) → String → Option Json
  | [], _ => none
  | (k', v) :: rest, k => if k' == k then some v else lookupField rest k

/-- `Value::get(key)`: `Some` only on objects that carry the key. -/
def getKey : Json → String → Option Json
  | .obj fs, k => lookupField fs k
  | _, _ => none

/-- `Value::index` (`v["key"]`): `Null` when the receiver is not an object or
    the key is absent. -/
def idx (j : Json) (k : String) : Json :=
  (j.getKey k).getD .null

/-- `Value::as_str`. -/
def asStr : Json → Option String
  | .str s => some s
  | _ => none

/-- `Value::as_u64`. -/
def asNat : Json → Option Nat
  | .num n => some n
  | _ => none

/-- `Value::as_array`. -/
def asArr : Json → Option (List Json)
  | .arr l => some l
  | _ => none

/-- `Value::as_object`. -/
def asObj : Json → Option (List (String × Json))
  | .obj fs => some fs
  | _ => none

/-- `Value::is_object`. -/
def isObj : Json → Bool
  | .obj _ => true
  | _ => false

/-- `Value::is_null`. -/
def isNull : Json → Bool
  | .null => true
  | _ => false

end Json

/-! ## Size lemmas, used for the well-founded recursions below. -/

theorem sizeOf_lookupField {fs : List (String × Json)} {k : String} {v : Json}
    (h : Json.lookupField fs k = some v) : sizeOf v + 4 ≤ sizeOf (Json.obj fs) := by
  induction fs with
  | nil => simp [Json.lookupField] at h
  | cons p rest ih =>
    obtain ⟨k', v'⟩ := p
    rw [Json.lookupField] at h
    by_cases hk : (k' == k) = true
    · simp [hk] at h
      subst h
      simp
      have : 1 ≤ sizeOf rest := by cases rest <;> simp <;> omega
      omega
    · simp [hk] at h
      have := ih h
      simp at this ⊢
      omega

theorem sizeOf_getKey {j : Json} {k : String} {v : Json}
    (h : j.getKey k = some v) : sizeOf v + 4 ≤ sizeOf j := by
  cases j <;> simp [Json.getKey] at h
  exact sizeOf_lookupField h

theorem sizeOf_asArr {j : Json} {l : List Json} (h : j.asArr = some l) :
    sizeOf l < sizeOf j := by
  cases j <;> simp [Json.asArr] at h
  subst h; simp

theorem sizeOf_idx_lt {j : Json} (hj : j.isObj = true) (k : String) :
    sizeOf (j.idx k) < sizeOf j := by
  cases j <;> simp [Json.isObj] at hj
  rename_i fs
  rw [Json.idx]
  cases h : Json.getKey (Json.obj fs) k with
  | none =>
    simp [Option.getD]
    have : 1 ≤ sizeOf fs := by cases fs <;> simp <;> omega
    omega
  | some v =>
    have := sizeOf_getKey h
    simp at this
    simp [Option.getD]
    omega

/-! ## Rust string-operation models -/

/-- `str::starts_with` on character lists. -/
def listIsPrefix : List Char → List Char → Bool
  | [], _ => true
  | _ :: _, [] => false
  | a :: as, b :: bs => a == b && listIsPrefix as bs

/-- `str::contains` (substring search) on character lists. -/
def listContainsSub (sub : List Char) : List Char → Bool
  | [] => listIsPrefix sub []
  | c :: rest => listIsPrefix sub (c :: rest) || listContainsSub sub rest

/-- `str::to_lowercase` (ASCII: every name in scope is ASCII). -/
def rsToLower (s : String) : String := ⟨s.data.map Char.toLower⟩

/-- `str::starts_with`. -/
def rsStartsWith (s p : String) : Bool := listIsPrefix p.data s.data

/-- `str::ends_with`. -/
def rsEndsWith (s p : String) : Bool := listIsPrefix p.data.reverse s.data.reverse

/-- `str::contains` with a string pattern. -/
def rsContains (s sub : String) : Bool := listContainsSub sub.data s.data

/-- Lexicographic comparison of character lists by code point.  Code-point
    order coincides with UTF-8 byte order, so this is Rust's `Ord` for
    `str`/`String`. -/
def charListLe : List Char → List Char → Bool
  | [], _ => true
  | _ :: _, [] => false
  | a :: as, b :: bs =>
    if a.toNat < b.toNat then true
    else if b.toNat < a.toNat then false
    else charListLe as bs

/-- Rust's `a <= b` on `String`. -/
def strLe (a b : String) : Bool := charListLe a.data b.data

/-! ## src/utils.rs -/

/-- `extract_type_name` (src/utils.rs:5-76): canonical type-name string of an
    AST type node.  The Rust early return fires when the node is null *or*
    not an object, which is equivalent to "not an object". -/
def extract_type_name (t : Json) : String :=
  if ht : t.isObj then
    let nt := ((t.idx "nodeType").asStr).getD ""
    if nt == "ElementaryTypeName" then
      ((t.idx "name").asStr).getD "unknown"
    else if nt == "UserDefinedTypeName" then
      if (t.getKey "pathNode").isSome then
        ((((t.idx "pathNode").idx "name").asStr).orElse
          (fun _ => (t.idx "name").asStr)).getD "unknown"
      else
        ((t.idx "name").asStr).getD "unknown"
    else if nt == "ArrayTypeName" then
      let base_type := extract_type_name (t.idx "baseType")
      if (t.getKey "length").isSome then
        match ((t.idx "length").idx "value").asStr with
        | some length_str => base_type ++ "[" ++ length_str ++ "]"
        | none =>
          match ((t.idx "length").idx "value").asNat with
          | some length_num => base_type ++ "[" ++ toString length_num ++ "]"
          | none => base_type ++ "[]"
      else base_type ++ "[]"
    else if nt == "Mapping" then
      "mapping(" ++ extract_type_name (t.idx "keyType") ++ "=>"
        ++ extract_type_name (t.idx "valueType") ++ ")"
    else if nt == "TupleType" then
      match hc : (t.idx "components").asArr with
      | some components =>
        "(" ++ String.intercalate ", "
          (components.attach.map (fun cc => extract_type_name cc.1)) ++ ")"
      | none => "tuple"
    else if nt == "FunctionTypeName" then "function"
    else if nt == "AddressType" then
      if (t.idx "stateMutability").asStr == some "payable" then "address payable"
      else "address"
    else
      match ((t.getKey "typeDescriptions").bind (fun td => td.getKey "typeString")).bind
          Json.asStr with
      | some type_string => type_string
      | none => "unknown"
  else "unknown"
termination_by sizeOf t
decreasing_by
  · exact sizeOf_idx_lt ht _
  · exact sizeOf_idx_lt ht _
  · exact sizeOf_idx_lt ht _
  · have h1 := sizeOf_idx_lt ht "components"
    have h2 := sizeOf_asArr hc
    have h3 := List.sizeOf_lt_of_mem cc.2
    omega

/-- `extract_return_type` (src/utils.rs:79-136). -/
def extract_return_type (function_node : Json) : Option String :=
  match (function_node.getKey "returnParameters").bind
      (fun rp => (rp.getKey "parameters").bind Json.asArr) with
  | some parameters =>
    if parameters.isEmpty then none
    else
      let acc := parameters.foldl (fun (acc : List String × List String) param =>
        let param_type0 :=
          if (param.getKey "typeName").isSome then extract_type_name (param.idx "typeName")
          else "unknown"
        let param_type :=
          if param_type0 == "unknown" then
            match ((param.getKey "typeDescriptions").bind
                (fun td => td.getKey "typeString")).bind Json.asStr with
            | some type_str => type_str
            | none => param_type0
          else param_type0
        let acc := (acc.1 ++ [param_type], acc.2)
        match (param.getKey "name").bind Json.asStr with
        | some name => if name != "" then (acc.1, acc.2 ++ [name]) else acc
        | none => acc) ([], [])
      let return_types := acc.1
      let return_names := acc.2
      if !return_types.isEmpty then
        if !return_names.isEmpty && return_names.length == return_types.length then
          some (String.intercalate ", "
            ((return_names.zip return_types).map (fun p => p.1 ++ ": " ++ p.2)))
        else some (String.intercalate ", " return_types)
      else none
  | none => none

/-- The keyword → description table of `get_function_purpose` (src/utils.rs:140-158). -/
def common_functions : List (String × String) :=
  [("constructor", "Contract initialization"),
   ("transfer", "Transfer tokens or ETH"),
   ("approve", "Approve token spending"),
   ("mint", "Create new tokens"),
   ("burn", "Destroy tokens"),
   ("deposit", "Deposit funds"),
   ("withdraw", "Withdraw funds"),
   ("claim", "Claim rewards or tokens"),
   ("stake", "Stake tokens"),
   ("unstake", "Unstake tokens"),
   ("vote", "Cast vote"),
   ("execute", "Execute operation"),
   ("deploy", "Deploy new contract instance"),
   ("predictAddress", "Calculate deterministic address"),
   ("airdrop", "Distribute tokens to addresses"),
   ("airdropToAddresses", "Send ETH to multiple addresses"),
   ("airdropToKeyIds", "Send ETH to wallets identified by public keys")]

/-- `get_function_purpose` (src/utils.rs:139-167): first table entry whose
    lowercased keyword is a substring of the lowercased function name. -/
def get_function_purpose (function_name : String) : Option String :=
  (common_functions.find? (fun kd =>
    rsContains (rsToLower function_name) (rsToLower kd.1))).map (fun kd => kd.2)

/-- `is_important_variable` (src/utils.rs:170-181). -/
def is_important_variable (var_name : String) : Bool :=
  ["owner", "admin", "token", "deployer", "implementation", "registry",
   "factory"].any (fun p => rsContains (rsToLower var_name) p)

/-- `guess_type_from_name` (src/utils.rs:184-201). -/
def guess_type_from_name (name : String) : String :=
  if rsStartsWith name "is" || rsStartsWith name "has" then "bool"
  else if rsContains (rsToLower name) "amount" || rsContains (rsToLower name) "value"
      || rsContains (rsToLower name) "balance" then "uint256"
  else if rsContains (rsToLower name) "address" || rsEndsWith name "Addr" then "address"
  else if rsContains (rsToLower name) "id" then "bytes32"
  else if rsContains (rsToLower name) "key" then "bytes"
  else "any"

/-- `get_literal_type` (src/utils.rs:204-215). -/
def get_literal_type (literal : Json) : String :=
  match (literal.getKey "kind").bind Json.asStr with
  | some kind =>
    if kind == "number" then "uint256"
    else if kind == "string" then "string"
    else if kind == "bool" then "bool"
    else "any"
  | none => "any"

/-- `serde_json::Value::to_string` (compact JSON serialization), used on the
    `value` field of `Literal` nodes.  String escaping is not modelled: the
    literal values in scope contain no characters needing JSON escapes. -/
def jsonToString : Json → String
  | .null => "null"
  | .bool b => if b then "true" else "false"
  | .num n => toString n
  | .str s => "\"" ++ s ++ "\""
  | .arr l =>
    "[" ++ String.intercalate "," (l.attach.map (fun e => jsonToString e.1)) ++ "]"
  | .obj fs =>
    "\x7b" ++ String.intercalate ","
      (fs.attach.map (fun e => "\"" ++ e.1.1 ++ "\":" ++ jsonToString e.1.2)) ++ "\x7d"
termination_by j => sizeOf j
decreasing_by
  · have h1 := List.sizeOf_lt_of_mem e.2
    simp only [Json.arr.sizeOf_spec]
    omega
  · have h1 := List.sizeOf_lt_of_mem e.2
    have h2 : sizeOf e.1.2 < sizeOf e.1 := by
      obtain ⟨⟨a, b⟩, hm⟩ := e
      simp only [Prod.mk.sizeOf_spec]
      omega
    simp only [Json.obj.sizeOf_spec]
    omega

/-! ## src/types.rs -/

/-- `ContractInfo` (src/types.rs:39-48).  Field defaults mirror
    `Default::default()`.  `vars` models the Rust field `variables`
    (that identifier is a reserved token in Lean). -/
structure ContractInfo where
  name : String := ""
  events : List String := []
  functions : List String := []
  vars : List (String × String) := []
  inherits_from : List String := []
  contract_type : String := ""
  source_file : String := ""
deriving DecidableEq

/-- `ContractRelationship` (src/types.rs:51-56). -/
structure ContractRelationship where
  source : String
  target : String
  relation_type : String
deriving DecidableEq

/-- `DiagramData` (src/types.rs:59-67).
    * `participants` models the `HashSet<String>`: a duplicate-free list whose
      membership is all the set exposes (iteration happens only inside
      `order_participants`, which sorts).
    * `contracts` models the `HashMap<String, ContractInfo>` as an association
      list in insertion order; the map's iteration order is *unspecified* in
      Rust, so the renderer below takes the order it iterates this map in as
      an explicit argument.
    * `contract_interactions` models the `IndexMap` (insertion-ordered). -/
structure DiagramData where
  participants : List String := []
  contracts : List (String × ContractInfo) := []
  user_interactions : List String := []
  contract_interactions : List (String × List String) := []
  events : List (String × String) := []
  contract_relationships : List ContractRelationship := []
deriving DecidableEq

/-- `HashSet::insert`. -/
def insertPart (p : List String) (x : String) : List String :=
  if p.contains x then p else p ++ [x]

/-- `HashMap::insert`: replace the value of an existing key, else append. -/
def insertMap (m : List (String × ContractInfo)) (k : String) (v : ContractInfo) :
    List (String × ContractInfo) :=
  match m with
  | [] => [(k, v)]
  | (k', v') :: rest =>
    if k' == k then (k, v) :: rest else (k', v') :: insertMap rest k v

/-- `HashMap::get`. -/
def lookupMap (m : List (String × ContractInfo)) (k : String) : Option ContractInfo :=
  match m with
  | [] => none
  | (k', v) :: rest => if k' == k then some v else lookupMap rest k

/-- `IndexMap::insert`: replace in place, else append (insertion order kept). -/
def insertIMap (m : List (String × List String)) (k : String) (v : List String) :
    List (String × List String) :=
  match m with
  | [] => [(k, v)]
  | (k', v') :: rest =>
    if k' == k then (k, v) :: rest else (k', v') :: insertIMap rest k v

/-! ## src/ast.rs — pass 1 (`collect_contracts_and_variables`) -/

/-- One step of the `baseContracts` loop (src/ast.rs:62-77): record an
    "inherits" relationship and extend `inherits_from`. -/
def collectBase (contract_name : String) (p : ContractInfo × DiagramData) (base : Json) :
    ContractInfo × DiagramData :=
  match ((base.getKey "baseName").bind (fun bn => bn.getKey "name")).bind Json.asStr with
  | some base_name =>
    ({ p.1 with inherits_from := p.1.inherits_from ++ [base_name] },
     { p.2 with contract_relationships := p.2.contract_relationships ++
        [⟨contract_name, base_name, "inherits"⟩] })
  | none => p

/-- One step of the member-node loop (src/ast.rs:80-114): events and state
    variables, recording a "references" relationship when the resolved type
    is a known participant or contains "address". -/
def collectMember (contract_name : String) (p : ContractInfo × DiagramData) (cn : Json) :
    ContractInfo × DiagramData :=
  let node_type := ((cn.idx "nodeType").asStr).getD ""
  if node_type == "EventDefinition" then
    let event_name := ((cn.idx "name").asStr).getD "UnknownEvent"
    ({ p.1 with events := p.1.events ++ [event_name] },
     { p.2 with events := p.2.events ++ [(contract_name, event_name)] })
  else if node_type == "VariableDeclaration" then
    let var_name := ((cn.idx "name").asStr).getD "unknown"
    let var_type := extract_type_name (cn.idx "typeName")
    let info := { p.1 with vars := p.1.vars ++ [(var_name, var_type)] }
    if p.2.participants.contains var_type
        || rsContains (rsToLower var_type) "address" then
      (info, { p.2 with contract_relationships := p.2.contract_relationships ++
        [⟨contract_name, var_type, "references"⟩] })
    else (info, p.2)
  else p

/-- One top-level declaration of pass 1 (src/ast.rs:47-118). -/
def collectNode (ast : Json) (data : DiagramData) (node : Json) : DiagramData :=
  if (node.idx "nodeType").asStr == some "ContractDefinition" then
    let contract_name := ((node.idx "name").asStr).getD "Unknown"
    let data := { data with participants := insertPart data.participants contract_name }
    let contract_info : ContractInfo :=
      { name := contract_name,
        contract_type := ((node.idx "contractKind").asStr).getD "contract",
        source_file := ((ast.idx "absolutePath").asStr).getD "unknown" }
    let p :=
      match (node.idx "baseContracts").asArr with
      | some base_contracts => base_contracts.foldl (collectBase contract_name)
          (contract_info, data)
      | none => (contract_info, data)
    let p :=
      match (node.idx "nodes").asArr with
      | some contract_nodes => contract_nodes.foldl (collectMember contract_name) p
      | none => p
    { p.2 with contracts := insertMap p.2.contracts contract_name p.1 }
  else data

/-- `collect_contracts_and_variables` (src/ast.rs:44-122): hard failure when
    `nodes` is absent or not an array, otherwise a pure fold. -/
def collect_contracts_and_variables (ast : Json) (data : DiagramData) :
    Except String DiagramData :=
  match (ast.idx "nodes").asArr with
  | none => .error "nodes is not an array"
  | some nodes => .ok (nodes.foldl (collectNode ast) data)

/-! ## src/ast.rs — the body walker (`process_function_body`) -/

/-- The argument-rendering loop that the Rust code repeats verbatim for emit
    statements, bare calls, type-conversion calls and initializer calls
    (src/ast.rs:414-448, 472-515, 575-617, 653-696): collect rendered
    arguments (identifiers with a guessed type, literals with a literal
    type), then join. -/
def extractArgStr (callNode : Json) : String :=
  let p :=
    match (callNode.getKey "arguments").bind Json.asArr with
    | some arguments => arguments.foldl (fun (acc : List String × List String) (arg : Json) =>
        if (arg.idx "nodeType").asStr == some "Identifier" then
          match (arg.getKey "name").bind Json.asStr with
          | some arg_name =>
            (acc.1 ++ [arg_name],
             acc.2 ++ [arg_name ++ ": " ++ guess_type_from_name arg_name])
          | none => acc
        else if (arg.idx "nodeType").asStr == some "Literal" then
          match arg.getKey "value" with
          | some v =>
            let value := jsonToString v
            (acc.1 ++ [value], acc.2 ++ [value ++ ": " ++ get_literal_type arg])
          | none => acc
        else acc) ([], [])
    | none => ([], [])
  if !p.2.isEmpty then String.intercalate ", " p.2
  else if !p.1.isEmpty then String.intercalate ", " p.1
  else ""

/-- Loop description of a `ForStatement` (src/ast.rs:281-302): the last named
    declaration of the initialization expression wins, upgraded with its
    resolved type when that is not "unknown". -/
def forDesc (statement : Json) : String :=
  match statement.getKey "initializationExpression" with
  | some init_expr =>
    match (init_expr.getKey "declarations").bind Json.asArr with
    | some declarations => declarations.foldl (fun desc decl =>
        match (decl.getKey "name").bind Json.asStr with
        | some var_name =>
          match decl.getKey "typeName" with
          | some type_name =>
            let loop_var_type := extract_type_name type_name
            if loop_var_type != "unknown" then
              "For each " ++ var_name ++ ": " ++ loop_var_type
            else "For each " ++ var_name
          | none => "For each " ++ var_name
        | none => desc) "For each item"
    | none => "For each item"
  | none => "For each item"

/-- Condition description of an `IfStatement` (src/ast.rs:331-356). -/
def ifDesc (statement : Json) : String :=
  match statement.getKey "condition" with
  | some condition =>
    if (condition.idx "nodeType").asStr == some "BinaryOperation" then
      match condition.getKey "leftExpression", condition.getKey "rightExpression",
          (condition.getKey "operator").bind Json.asStr with
      | some left, some right, some op =>
        match (left.getKey "name").bind Json.asStr with
        | some left_name =>
          match (right.getKey "value").bind Json.asStr with
          | some right_val_str => "if " ++ left_name ++ " " ++ op ++ " " ++ right_val_str
          | none =>
            match (right.getKey "value").bind Json.asNat with
            | some right_val_num =>
              "if " ++ left_name ++ " " ++ op ++ " " ++ toString right_val_num
            | none => "if condition"
        | none => "if condition"
      | _, _, _ => "if condition"
    else "if condition"
  | none => "if condition"

/-- `EmitStatement` handling (src/ast.rs:409-457). -/
def emitLines (contract_name : String) (statement : Json) : List String :=
  match statement.getKey "eventCall" with
  | some event_call =>
    match event_call.getKey "expression" with
    | some expression =>
      match (expression.getKey "name").bind Json.asStr with
      | some event_name =>
        [contract_name ++ "->>Events: emit " ++ event_name ++ "("
          ++ extractArgStr event_call ++ ")"]
      | none => []
    | none => []
  | none => []

/-- `ExpressionStatement` handling (src/ast.rs:458-638): bare calls through a
    member access, with the transfer/send, token-target and type-conversion
    special cases. -/
def exprStmtLines (contract_name : String) (statement : Json) : List String :=
  match statement.getKey "expression" with
  | some expression =>
    if (expression.idx "nodeType").asStr == some "FunctionCall" then
      match expression.getKey "expression" with
      | some call_expr =>
        if (call_expr.idx "nodeType").asStr == some "MemberAccess" then
          let member_name := ((call_expr.idx "memberName").asStr).getD "unknown"
          match call_expr.getKey "expression" with
          | some base_expr =>
            if (base_expr.idx "nodeType").asStr == some "Identifier" then
              let target_name := ((base_expr.idx "name").asStr).getD "Unknown"
              let arg_str := extractArgStr expression
              let noteLines :=
                match get_function_purpose member_name with
                | some purpose => ["Note right of " ++ contract_name ++ ": " ++ purpose]
                | none => []
              if member_name == "transfer" || member_name == "send" then
                noteLines ++
                [contract_name ++ "->>+" ++ target_name ++ ": " ++ member_name
                   ++ "(" ++ arg_str ++ ")",
                 target_name ++ "-->>-" ++ contract_name ++ ": return (success)"]
              else if (member_name == "transferFrom" || member_name == "transfer")
                  && rsContains (rsToLower target_name) "token" then
                noteLines ++
                [contract_name ++ "->>+TokenContract: " ++ member_name
                   ++ "(" ++ arg_str ++ ")",
                 "TokenContract-->>-" ++ contract_name ++ ": return (success)"]
              else
                noteLines ++
                [contract_name ++ "->>+" ++ target_name ++ ": " ++ member_name
                   ++ "(" ++ arg_str ++ ")",
                 target_name ++ "-->>-" ++ contract_name ++ ": return"]
            else if (base_expr.idx "nodeType").asStr == some "FunctionCall"
                && (base_expr.getKey "kind").bind Json.asStr == some "typeConversion" then
              let special_arg_str := extractArgStr expression
              if member_name == "transfer" || member_name == "send"
                  || member_name == "call" then
                [contract_name ++ "->>+Recipient: ETH " ++ member_name
                   ++ "(" ++ special_arg_str ++ ")",
                 "Recipient-->>-" ++ contract_name ++ ": return (success)"]
              else []
            else []
          | none => []
        else []
      | none => []
    else []
  | none => []

/-- `VariableDeclarationStatement` handling (src/ast.rs:639-732): a call
    initializer renders a call line plus a `return → names` line. -/
def varDeclLines (contract_name : String) (statement : Json) : List String :=
  match statement.getKey "initialValue" with
  | some init_value =>
    if (init_value.idx "nodeType").asStr == some "FunctionCall" then
      match init_value.getKey "expression" with
      | some call_expr =>
        if (call_expr.idx "nodeType").asStr == some "MemberAccess" then
          let member_name := ((call_expr.idx "memberName").asStr).getD "unknown"
          match call_expr.getKey "expression" with
          | some base_expr =>
            if (base_expr.idx "nodeType").asStr == some "Identifier" then
              let target_name := ((base_expr.idx "name").asStr).getD "Unknown"
              let arg_str := extractArgStr init_value
              let var_names :=
                match (statement.getKey "declarations").bind Json.asArr with
                | some declarations => declarations.foldl (fun acc decl =>
                    match (decl.getKey "name").bind Json.asStr with
                    | some name => acc ++ [name]
                    | none => acc) []
                | none => []
              let var_str :=
                if !var_names.isEmpty then String.intercalate ", " var_names
                else "result"
              [contract_name ++ "->>+" ++ target_name ++ ": " ++ member_name
                 ++ "(" ++ arg_str ++ ")",
               target_name ++ "-->>-" ++ contract_name ++ ": return → " ++ var_str]
            else []
          | none => []
        else []
      | none => []
    else []
  | none => []

/-- The statements a loop/branch body recurses into (src/ast.rs:308-323 and
    the identical trueBody/falseBody handling): a `statements` array when
    there is one, else the body itself as a single statement when it carries
    a `nodeType`, else nothing. -/
def subStmts (body : Json) : List Json :=
  match (body.getKey "statements").bind Json.asArr with
  | some body_statements => body_statements
  | none => if (body.getKey "nodeType").isSome then [body] else []

theorem sizeOf_subStmts (body : Json) : sizeOf (subStmts body) ≤ sizeOf body + 2 := by
  rw [subStmts]
  cases h : (body.getKey "statements").bind Json.asArr with
  | some ss =>
    simp
    obtain ⟨s, hs, harr⟩ := Option.bind_eq_some.mp h
    have h1 := sizeOf_getKey hs
    have h2 := sizeOf_asArr harr
    omega
  | none =>
    by_cases hk : (body.getKey "nodeType").isSome <;> simp [hk] <;> omega

theorem sizeOf_subStmts_lt {statement body : Json} {k : String}
    (h : statement.getKey k = some body) : sizeOf (subStmts body) < sizeOf statement := by
  have h1 := sizeOf_getKey h
  have h2 := sizeOf_subStmts body
  omega

mutual

/-- One statement of `process_function_body` (src/ast.rs:275-734), dispatched
    on the `nodeType` tag; unrecognized kinds produce no output. -/
def processStmt (contract_name function_name : String) (statement : Json) : List String :=
  let node_type := ((statement.idx "nodeType").asStr).getD ""
  if node_type == "ForStatement" then
    let bodyLines :=
      match hb : statement.getKey "body" with
      | some body =>
        (processStmts contract_name function_name (subStmts body)).map
          (fun line => "    " ++ line)
      | none => []
    ["loop " ++ forDesc statement] ++ bodyLines ++ ["end"]
  else if node_type == "IfStatement" then
    let trueLines :=
      match ht : statement.getKey "trueBody" with
      | some true_body =>
        (processStmts contract_name function_name (subStmts true_body)).map
          (fun line => "    " ++ line)
      | none => []
    let falseLines :=
      match hf : statement.getKey "falseBody" with
      | some false_body =>
        if false_body.isObj then
          "else" :: (processStmts contract_name function_name (subStmts false_body)).map
            (fun line => "    " ++ line)
        else []
      | none => []
    ["alt " ++ ifDesc statement] ++ trueLines ++ falseLines ++ ["end"]
  else if node_type == "EmitStatement" then emitLines contract_name statement
  else if node_type == "ExpressionStatement" then exprStmtLines contract_name statement
  else if node_type == "VariableDeclarationStatement" then
    varDeclLines contract_name statement
  else []
termination_by sizeOf statement
decreasing_by
  · exact sizeOf_subStmts_lt hb
  · exact sizeOf_subStmts_lt ht
  · exact sizeOf_subStmts_lt hf

/-- The statement loop of `process_function_body`: per-statement lines are
    appended in order. -/
def processStmts (contract_name function_name : String) : List Json → List String
  | [] => []
  | s :: rest =>
    processStmt contract_name function_name s
      ++ processStmts contract_name function_name rest
termination_by l => sizeOf l
decreasing_by
  all_goals simp
  all_goals omega

end

/-- `process_function_body` (src/ast.rs:268-738). -/
def process_function_body (contract_name function_name : String)
    (statements : List Json) : List String :=
  processStmts contract_name function_name statements

/-! ## src/ast.rs — pass 2 (`process_functions_and_interactions`) -/

/-- The parameter loop of pass 2 (src/ast.rs:156-192): named parameters with
    their resolved (or typeDescription-fallback) types. -/
def fnParams (cn : Json) : List String × List String :=
  match ((cn.getKey "parameters").bind (fun p => p.getKey "parameters")).bind
      Json.asArr with
  | some parameters => parameters.foldl (fun (acc : List String × List String)
      (param : Json) =>
      let param_name := ((param.idx "name").asStr).getD ""
      let param_type0 :=
        if (param.getKey "typeName").isSome then extract_type_name (param.idx "typeName")
        else "unknown"
      let param_type :=
        if param_type0 == "unknown" then
          match ((param.getKey "typeDescriptions").bind
              (fun td => td.getKey "typeString")).bind Json.asStr with
          | some type_str => type_str
          | none => param_type0
        else param_type0
      if param_name != "" then (acc.1 ++ [param_name], acc.2 ++ [param_type])
      else acc) ([], [])
  | none => ([], [])

/-- One `FunctionDefinition` member of pass 2 (src/ast.rs:134-258). -/
def processFnNode (contract_name : String) (data : DiagramData) (cn : Json) :
    DiagramData :=
  if (cn.idx "nodeType").asStr == some "FunctionDefinition" then
    match (cn.idx "name").asStr with
    | none => data
    | some name =>
      let function_name :=
        if name == "" && (cn.idx "kind").asStr == some "constructor" then "constructor"
        else name
      let data :=
        match lookupMap data.contracts contract_name with
        | some contract_info =>
          let contract_info :=
            { contract_info with
              functions := contract_info.functions ++ [function_name] }
          { data with
            contracts := insertMap data.contracts contract_name contract_info }
        | none => data
      let visibility := ((cn.idx "visibility").asStr).getD ""
      if visibility == "public" || visibility == "external" then
        let p := fnParams cn
        let message :=
          if p.1.isEmpty then function_name ++ "()"
          else function_name ++ "(" ++ String.intercalate ", "
            ((p.1.zip p.2).map (fun nt => nt.1 ++ ": " ++ nt.2)) ++ ")"
        let data :=
          match get_function_purpose function_name with
          | some purpose =>
            { data with user_interactions := data.user_interactions ++
                ["Note over User," ++ contract_name ++ ": " ++ purpose] }
          | none => data
        let data := { data with user_interactions := data.user_interactions ++
            ["User->>+" ++ contract_name ++ ": " ++ message] }
        let data :=
          match cn.getKey "body" with
          | some body =>
            match (body.getKey "statements").bind Json.asArr with
            | some statements =>
              let function_key := contract_name ++ "." ++ function_name
              let body_interactions :=
                process_function_body contract_name function_name statements
              let ci := insertIMap data.contract_interactions function_key body_interactions
              { data with contract_interactions := ci }
            | none => data
          | none => data
        match extract_return_type cn with
        | some ret_type =>
          { data with user_interactions := data.user_interactions ++
              [contract_name ++ "-->>-User: return " ++ ret_type] }
        | none =>
          let state_mutability := ((cn.idx "stateMutability").asStr).getD ""
          if state_mutability == "view" || state_mutability == "pure" then
            { data with user_interactions := data.user_interactions ++
                [contract_name ++ "-->>-User: return (view function)"] }
          else
            { data with user_interactions := data.user_interactions ++
                [contract_name ++ "-->>-User: return"] }
      else data
  else data

/-- One top-level declaration of pass 2 (src/ast.rs:128-261). -/
def processNode (data : DiagramData) (node : Json) : DiagramData :=
  if (node.idx "nodeType").asStr == some "ContractDefinition" then
    let contract_name := ((node.idx "name").asStr).getD "Unknown"
    match (node.idx "nodes").asArr with
    | some contract_nodes => contract_nodes.foldl (processFnNode contract_name) data
    | none => data
  else data

/-- `process_functions_and_interactions` (src/ast.rs:125-265). -/
def process_functions_and_interactions (ast : Json) (data : DiagramData) :
    Except String DiagramData :=
  match (ast.idx "nodes").asArr with
  | none => .error "nodes is not an array"
  | some nodes => .ok (nodes.foldl processNode data)

/-! ## src/ast.rs — `extract_contract_info` -/

/-- The synthetic participants added between the two passes
    (src/ast.rs:17-20 and 31-34). -/
def addDefaults (data : DiagramData) : DiagramData :=
  let p := insertPart (insertPart (insertPart data.participants "User") "Events") "TokenContract"
  { data with participants := p }

/-- The per-file loop of the combined-json branch (src/ast.rs:12-25): for
    each source (in the map's iteration order) that has an `AST` value, run
    pass 1, add the defaults, then run pass 2 — all before moving to the
    next file. -/
def processFiles : List (String × Json) → DiagramData → Except String DiagramData
  | [], data => .ok data
  | (_, source) :: rest, data =>
    match source.getKey "AST" with
    | some source_ast => do
      let data ← collect_contracts_and_variables source_ast data
      let data := addDefaults data
      let data ← process_functions_and_interactions source_ast data
      processFiles rest data
    | none => processFiles rest data

/-- `extract_contract_info` (src/ast.rs:7-41). -/
def extract_contract_info (ast : Json) : Except String DiagramData :=
  match ast.getKey "sources" with
  | some sources =>
    match sources.asObj with
    | none => .error "sources is not an object"
    | some files => processFiles files {}
  | none => do
    let data ← collect_contracts_and_variables ast {}
    let data := addDefaults data
    process_functions_and_interactions ast data

/-- Modelled from the spec (§3 "Lifecycle", §4.4), for comparison with the
    code under claim C4: the declaration pass runs *globally* over every
    file first, then the synthetic participants are added, then the body
    pass runs globally; the flat single-file shape is handled transparently
    by the same two global passes. -/
def extract_contract_info_global (ast : Json) : Except String DiagramData :=
  match ast.getKey "sources" with
  | some sources =>
    match sources.asObj with
    | none => .error "sources is not an object"
    | some files => do
      let data ← files.foldlM (fun data kv =>
        match (kv.2).getKey "AST" with
        | some source_ast => collect_contracts_and_variables source_ast data
        | none => .ok data) ({} : DiagramData)
      let data := addDefaults data
      files.foldlM (fun data kv =>
        match (kv.2).getKey "AST" with
        | some source_ast => process_functions_and_interactions source_ast data
        | none => .ok data) data
  | none => do
    let data ← collect_contracts_and_variables ast {}
    let data := addDefaults data
    process_functions_and_interactions ast data

/-! ## src/diagram.rs -/

/-- `add_theme_config` (src/diagram.rs:135-161).  `\x7b`/`\x7d` are literal
    braces. -/
def add_theme_config (light_colors : Bool) : List String :=
  ["%%\x7binit: \x7b",
   "  'theme': 'base',",
   "  'themeVariables': \x7b"]
  ++ (if light_colors then
      ["    'primaryColor': '#fafbfc',",
       "    'primaryTextColor': '#444',",
       "    'primaryBorderColor': '#e1e4e8',",
       "    'lineColor': '#a0aec0',",
       "    'secondaryColor': '#f5fbff',",
       "    'tertiaryColor': '#fff8f8'"]
    else
      ["    'primaryColor': '#f5f5f5',",
       "    'primaryTextColor': '#333',",
       "    'primaryBorderColor': '#999',",
       "    'lineColor': '#666',",
       "    'secondaryColor': '#f0f8ff',",
       "    'tertiaryColor': '#fff5f5'"])
  ++ ["  \x7d", "\x7d\x7d%%", ""]

/-- `order_participants` (src/diagram.rs:164-185): "User" first when present,
    the sorted set without "User"/"Events", then "Events".  `itertools`'
    `sorted()` over the `HashSet` iterator visits the (duplicate-free) set
    elements in `String`-lexicographic order, modelled by sorting the
    duplicate-free participant list. -/
def order_participants (participants : List String) : List String :=
  (if participants.contains "User" then ["User"] else [])
  ++ (List.insertionSort (fun a b => strLe a b = true) participants).filter
      (fun p => p != "User" && p != "Events")
  ++ (if participants.contains "Events" then ["Events"] else [])

/-- One participant declaration of `add_participants`
    (src/diagram.rs:188-244). -/
def participantLine (contracts : List (String × ContractInfo)) (participant : String) :
    String :=
  if participant == "User" then "participant User as \"External User\""
  else if participant == "Events" then "participant Events as \"Blockchain Events\""
  else if participant == "TokenContract" then
    "participant TokenContract as \"ERC20/ERC721 Tokens\""
  else
    match lookupMap contracts participant with
    | some contract_info =>
      let key_vars := contract_info.vars.filter (fun nv => is_important_variable nv.1)
      let part0 :=
        if contract_info.contract_type != "contract" then
          participant ++ " (" ++ contract_info.contract_type ++ ")"
        else participant
      let description_parts := [part0]
        ++ (if !key_vars.isEmpty then
              ["(" ++ String.intercalate ", "
                ((key_vars.take 2).map (fun nv => nv.1 ++ ": " ++ nv.2)) ++ ")"]
            else [])
        ++ (if contract_info.source_file != "" then
              ["from " ++ contract_info.source_file]
            else [])
      let title := String.intercalate "<br/>" description_parts
      "participant " ++ participant ++ " as \"" ++ title ++ "\""
    | none => "participant " ++ participant

/-- `add_section_title` (src/diagram.rs:247-270). -/
def add_section_title (title : String) (light_colors : Bool) : List String :=
  let color :=
    if light_colors then
      if title == "User Interactions" then "rgb(252, 252, 255)"
      else if title == "Contract-to-Contract Interactions" then "rgb(248, 252, 255)"
      else if title == "Event Definitions" then "rgb(255, 252, 252)"
      else if title == "Contract Relationships" then "rgb(252, 255, 252)"
      else "rgb(250, 250, 250)"
    else
      if title == "User Interactions" then "rgb(245, 245, 245)"
      else if title == "Contract-to-Contract Interactions" then "rgb(240, 248, 255)"
      else if title == "Event Definitions" then "rgb(255, 245, 245)"
      else if title == "Contract Relationships" then "rgb(245, 255, 245)"
      else "rgb(240, 240, 240)"
  ["rect " ++ color, "Note over User: " ++ title, "end", ""]

/-- `add_legend` (src/diagram.rs:273-292). -/
def add_legend (light_colors : Bool) : List String :=
  let legend_color := if light_colors then "rgb(248, 252, 255)" else "rgb(240, 240, 255)"
  ["",
   "%%\x7binit: \x7b 'sequence': \x7b 'showSequenceNumbers': true \x7d \x7d\x7d%%",
   "",
   "rect " ++ legend_color,
   "Note over User: Diagram Legend",
   "end",
   "",
   "Note left of User: User→Contract: Public/External function calls",
   "Note left of User: User←Contract: Function returns",
   "Note left of User: Contract→Contract: Internal interactions",
   "Note left of User: Contract→Events: Emitted events",
   "Note left of User: Colored sections indicate different interaction types"]

/-- The deduplicated "Interacts with" notes (src/diagram.rs:103-122): one
    note per first occurrence of a (source, target) pair among "calls"
    relationships whose endpoints are both participants; `seen_relationships`
    is the `HashSet` of emitted keys (only membership is used). -/
def interactsStep (participants : List String) (acc : List String × List String)
    (rel : ContractRelationship) : List String × List String :=
  if rel.relation_type == "calls" && participants.contains rel.source
      && participants.contains rel.target then
    let rel_key := rel.source ++ "->" ++ rel.target
    if acc.2.contains rel_key then acc
    else (acc.1 ++ ["Note right of " ++ rel.source ++ ": Interacts with " ++ rel.target],
          acc.2 ++ [rel_key])
  else acc

def interactsLines (rels : List ContractRelationship) (participants : List String) :
    List String :=
  (rels.foldl (interactsStep participants) ([], [])).1

/-- `generate_sequence_diagram`'s line assembly (src/diagram.rs:8-131),
    before the final newline join.  `contractsIter` is the order in which
    the three loops over the `data.contracts` `HashMap` visit its entries:
    Rust leaves that order unspecified (it is randomized per process), so it
    is an explicit parameter here; any permutation of the map's entries is an
    admissible instantiation, and all three loops of one run see the same
    order. -/
def renderLines (data : DiagramData) (contractsIter : List (String × ContractInfo))
    (light_colors : Bool) : List String :=
  ["```mermaid",
   "sequenceDiagram",
   "title Smart Contract Interaction Sequence Diagram",
   "autonumber",
   ""]
  ++ add_theme_config light_colors
  ++ (order_participants data.participants).map (participantLine data.contracts)
  ++ [""]
  ++ add_section_title "User Interactions" light_colors
  ++ data.user_interactions
  ++ (if !data.contract_interactions.isEmpty then
        [""] ++ add_section_title "Contract-to-Contract Interactions" light_colors
        ++ data.contract_interactions.foldl (fun acc kv =>
            if !kv.2.isEmpty then
              match kv.1.splitOn "." with
              | [contract, function] =>
                acc ++ ["Note right of " ++ contract ++ ": Processing " ++ function]
                  ++ kv.2 ++ [""]
              | _ => acc
            else acc) []
      else [])
  ++ (if !data.events.isEmpty then
        [""] ++ add_section_title "Event Definitions" light_colors
        ++ data.events.map (fun ce =>
            "Note over " ++ ce.1 ++ "," ++ ce.1 ++ ": Event: " ++ ce.2)
      else [])
  ++ (if !data.contracts.isEmpty then
        [""] ++ add_section_title "Contract Relationships" light_colors
        ++ contractsIter.foldl (fun acc ci =>
            if !ci.2.functions.isEmpty then
              acc ++ ["Note over " ++ ci.1 ++ ": Functions: "
                ++ String.intercalate ", " ci.2.functions]
            else acc) []
        ++ [""]
        ++ contractsIter.foldl (fun acc ci =>
            if !ci.2.inherits_from.isEmpty then
              acc ++ ["Note right of " ++ ci.1 ++ ": Inherits from: "
                ++ String.intercalate ", " ci.2.inherits_from]
            else acc) []
        ++ [""]
        ++ contractsIter.foldl (fun acc ci =>
            if ci.2.contract_type != "contract" then
              acc ++ ["Note right of " ++ ci.1 ++ ": Type: " ++ ci.2.contract_type]
            else acc) []
        ++ (if !data.contract_relationships.isEmpty then
              [""] ++ interactsLines data.contract_relationships data.participants
            else [])
      else [])
  ++ add_legend light_colors
  ++ ["```"]

/-- `generate_sequence_diagram` (src/diagram.rs:8-132), instantiated with the
    insertion order of the contracts map as the (in Rust: unspecified)
    `HashMap` iteration order. -/
def generate_sequence_diagram (ast : Json) (light_colors : Bool) :
    Except String String :=
  (extract_contract_info ast).map (fun data =>
    String.intercalate "\n" (renderLines data data.contracts light_colors))

/-! ## Concrete scenario inputs -/

/-- A flat AST with an empty top-level declaration array. -/
def emptyAst : Json := .obj [("nodes", .arr [])]

/-- Extraction result for `emptyAst` (extraction succeeds on it). -/
def emptyData : DiagramData := (extract_contract_info emptyAst).toOption.getD {}

/-- The spec's round-trip scenario: contract `Vault` inheriting `Ownable`,
    state variable `owner: address`, event `Deposited`, public function
    `deposit(amount: uint256)` with no return parameters. -/
def vaultAst : Json := .obj [("nodes", .arr [
  .obj [
    ("nodeType", .str "ContractDefinition"),
    ("name", .str "Vault"),
    ("contractKind", .str "contract"),
    ("baseContracts", .arr [.obj [("baseName", .obj [("name", .str "Ownable")])]]),
    ("nodes", .arr [
      .obj [("nodeType", .str "EventDefinition"), ("name", .str "Deposited")],
      .obj [("nodeType", .str "VariableDeclaration"), ("name", .str "owner"),
            ("typeName", .obj [("nodeType", .str "ElementaryTypeName"),
                               ("name", .str "address")])],
      .obj [("nodeType", .str "FunctionDefinition"), ("name", .str "deposit"),
            ("visibility", .str "public"),
            ("parameters", .obj [("parameters", .arr [
              .obj [("name", .str "amount"),
                    ("typeName", .obj [("nodeType", .str "ElementaryTypeName"),
                                       ("name", .str "uint256")])]])])]])]])]

/-- Extraction result for `vaultAst`. -/
def vaultData : DiagramData := (extract_contract_info vaultAst).toOption.getD {}

/-- Rendered lines for `vaultAst` (dark palette; the contracts map has one
    entry, so every map iteration order agrees). -/
def vaultOut : List String := renderLines vaultData vaultData.contracts false

/-- `a` immediately followed by `b` somewhere in `l`. -/
def adjacentIn (a b : String) (l : List String) : Bool :=
  (l.zip l.tail).contains (a, b)

/-- A flat AST with two contracts, each declaring one function: the smallest
    input on which the renderer's `HashMap` iteration order is visible. -/
def abAst : Json := .obj [("nodes", .arr [
  .obj [("nodeType", .str "ContractDefinition"), ("name", .str "A"),
        ("nodes", .arr [.obj [("nodeType", .str "FunctionDefinition"),
                              ("name", .str "fa")]])],
  .obj [("nodeType", .str "ContractDefinition"), ("name", .str "B"),
        ("nodes", .arr [.obj [("nodeType", .str "FunctionDefinition"),
                              ("name", .str "fb")]])]])]

/-- Extraction result for `abAst`. -/
def abData : DiagramData := (extract_contract_info abAst).toOption.getD {}

/-- A bare-call statement `target.member(…)` with no arguments, as consumed
    by the body walker's `ExpressionStatement` arm. -/
def mkBareCall (target member : String) : Json :=
  .obj [("nodeType", .str "ExpressionStatement"),
        ("expression", .obj [("nodeType", .str "FunctionCall"),
          ("expression", .obj [("nodeType", .str "MemberAccess"),
            ("memberName", .str member),
            ("expression", .obj [("nodeType", .str "Identifier"),
                                 ("name", .str target)])])])]

/-- Multi-file (combined `sources`) AST: file `a.sol` declares contract `A`;
    file `b.sol` declares contract `B` with a state variable of user-defined
    type `TokenContract`. -/
def multiAst : Json := .obj [("sources", .obj [
  ("a.sol", .obj [("AST", .obj [("nodes", .arr [
    .obj [("nodeType", .str "ContractDefinition"), ("name", .str "A")]])])]),
  ("b.sol", .obj [("AST", .obj [("nodes", .arr [
    .obj [("nodeType", .str "ContractDefinition"), ("name", .str "B"),
          ("nodes", .arr [
            .obj [("nodeType", .str "VariableDeclaration"), ("name", .str "t"),
                  ("typeName", .obj [("nodeType", .str "UserDefinedTypeName"),
                                     ("name", .str "TokenContract")])]])]])])])])]

/-- The recorded relationships of an extraction result. -/
def relsOfE : Except String DiagramData → List ContractRelationship
  | .ok d => d.contract_relationships
  | .error _ => []

/-- An `ElementaryTypeName` node carrying an empty `name` string. -/
def elemEmptyName : Json :=
  .obj [("nodeType", .str "ElementaryTypeName"), ("name", .str "")]

mutual

/-- No string leaf of the JSON value is empty (object keys are only used as
    lookup keys, never returned, so they are not constrained).
    `noEmptyArr`/`noEmptyObj` are its mutual companions over element and
    member lists. -/
def noEmptyStrLeaf : Json → Bool
  | .null => true
  | .bool _ => true
  | .num _ => true
  | .str s => s != ""
  | .arr l => noEmptyArr l
  | .obj fs => noEmptyObj fs

def noEmptyArr : List Json → Bool
  | [] => true
  | j :: rest => noEmptyStrLeaf j && noEmptyArr rest

def noEmptyObj : List (String × Json) → Bool
  | [] => true
  | (_, v) :: rest => noEmptyStrLeaf v && noEmptyObj rest

end

/-- The ordered rule table that claim C8 describes `guess_type_from_name`
    by; the case behavior of each rule is made explicit: the "is"/"has"
    prefix and the "Addr" suffix are matched case-sensitively, the substring
    rules on the lowercased name. -/
def typeRules : List ((String → Bool) × String) :=
  [(fun n => rsStartsWith n "is" || rsStartsWith n "has", "bool"),
   (fun n => rsContains (rsToLower n) "amount" || rsContains (rsToLower n) "value"
      || rsContains (rsToLower n) "balance", "uint256"),
   (fun n => rsContains (rsToLower n) "address" || rsEndsWith n "Addr", "address"),
   (fun n => rsContains (rsToLower n) "id", "bytes32"),
   (fun n => rsContains (rsToLower n) "key", "bytes")]

/-- First-match-wins application of an ordered rule table, defaulting to
    "any". -/
def firstMatch : List ((String → Bool) × String) → String → String
  | [], _ => "any"
  | (p, r) :: rest, n => if p n then r else firstMatch rest n

/-- The hard structural failures of extraction: a `sources` value that is
    not an object, or (in whichever files are reached / at the top level) a
    `nodes` value that is absent or not an array. -/
def nodesBad (a : Json) : Bool := ((a.idx "nodes").asArr).isNone

/-- Structural-failure predicate for a whole input AST (claim C9). -/
def structuralBad (ast : Json) : Bool :=
  match ast.getKey "sources" with
  | some sources =>
    match sources.asObj with
    | none => true
    | some files => files.any (fun kv =>
        match (kv.2).getKey "AST" with
        | some a => nodesBad a
        | none => false)
  | none => nodesBad ast

/-- A flat single-file AST with top-level declaration list `l`. -/
def mkFlat (l : List Json) : Json := .obj [("nodes", .arr l)]

/-- The participant set extracted from a flat AST with declarations `l`. -/
def partsOfFlat (l : List Json) : List String :=
  ((extract_contract_info (mkFlat l)).toOption.getD {}).participants

/-- The contract names that pass 1 registers as participants, in declaration
    order. -/
def contractNames (l : List Json) : List String :=
  l.filterMap (fun node =>
    if (node.idx "nodeType").asStr == some "ContractDefinition" then
      some (((node.idx "name").asStr).getD "Unknown")
    else none)

/-- Two ContractDefinition declarations used to witness permutation
    invariance. -/
def nodeC1 : Json := .obj [("nodeType", .str "ContractDefinition"), ("name", .str "Zeta")]

def nodeC2 : Json := .obj [("nodeType", .str "ContractDefinition"), ("name", .str "Alpha")]

/-- An `ElementaryTypeName` node with a non-empty name, used as the C5
    witness input. -/
def uintNode : Json :=
  .obj [("nodeType", .str "ElementaryTypeName"), ("name", .str "uint256")]

/-! ## Order-theoretic facts about the Rust string order -/

theorem charListLe_total : ∀ as bs : List Char,
    charListLe as bs = true ∨ charListLe bs as = true := by
  intro as
  induction as with
  | nil => intro bs; left; rw [charListLe]
  | cons a as ih =>
    intro bs
    cases bs with
    | nil => right; rw [charListLe]
    | cons b bs =>
      rw [charListLe, charListLe]
      by_cases h1 : a.toNat < b.toNat
      · left; simp [h1]
      · by_cases h2 : b.toNat < a.toNat
        · right; simp [h2]
        · simpa [h1, h2] using ih bs

theorem charListLe_trans : ∀ as bs cs : List Char,
    charListLe as bs = true → charListLe bs cs = true → charListLe as cs = true := by
  intro as
  induction as with
  | nil => intro bs cs _ _; rw [charListLe]
  | cons a as ih =>
    intro bs cs h1 h2
    cases bs with
    | nil => simp [charListLe] at h1
    | cons b bs =>
      cases cs with
      | nil => simp [charListLe] at h2
      | cons c cs =>
        rw [charListLe] at h1 h2 ⊢
        by_cases hab : a.toNat < b.toNat
        · by_cases hbc : b.toNat < c.toNat
          · have hac : a.toNat < c.toNat := by omega
            simp [hac]
          · by_cases hcb : c.toNat < b.toNat
            · simp [hbc, hcb] at h2
            · have hac : a.toNat < c.toNat := by omega
              simp [hac]
        · by_cases hba : b.toNat < a.toNat
          · simp [hab, hba] at h1
          · by_cases hbc : b.toNat < c.toNat
            · have hac : a.toNat < c.toNat := by omega
              simp [hac]
            · by_cases hcb : c.toNat < b.toNat
              · simp [hbc, hcb] at h2
              · have hac1 : ¬ a.toNat < c.toNat := by omega
                have hac2 : ¬ c.toNat < a.toNat := by omega
                simp [hab, hba] at h1
                simp [hbc, hcb] at h2
                simp [hac1, hac2]
                exact ih bs cs h1 h2

theorem charListLe_antisymm : ∀ as bs : List Char,
    charListLe as bs = true → charListLe bs as = true → as = bs := by
  intro as
  induction as with
  | nil =>
    intro bs _ h2
    cases bs with
    | nil => rfl
    | cons b bs => simp [charListLe] at h2
  | cons a as ih =>
    intro bs h1 h2
    cases bs with
    | nil => simp [charListLe] at h1
    | cons b bs =>
      rw [charListLe] at h1 h2
      by_cases hab : a.toNat < b.toNat
      · simp [show ¬ b.toNat < a.toNat by omega, hab] at h2
      · by_cases hba : b.toNat < a.toNat
        · simp [hab, hba] at h1
        · have hv : a = b := by
            have hn : a.toNat = b.toNat := by omega
            cases a; cases b
            simp only [Char.toNat] at hn
            congr 1
            exact UInt32.toNat.inj hn
          simp [hab, hba] at h1 h2
          rw [hv, ih bs h1 h2]

/-- The relation `order_participants` sorts by. -/
theorem strLe_rel_total : ∀ a b : String, strLe a b = true ∨ strLe b a = true :=
  fun a b => charListLe_total a.data b.data

theorem strLe_rel_trans : ∀ a b c : String,
    strLe a b = true → strLe b c = true → strLe a c = true :=
  fun a b c h1 h2 => charListLe_trans a.data b.data c.data h1 h2

theorem strLe_rel_antisymm : ∀ a b : String,
    strLe a b = true → strLe b a = true → a = b := by
  intro a b h1 h2
  have := charListLe_antisymm a.data b.data h1 h2
  cases a; cases b; simp_all

instance : IsTotal String (fun a b => strLe a b = true) := ⟨strLe_rel_total⟩
instance : IsTrans String (fun a b => strLe a b = true) :=
  ⟨fun a b c => strLe_rel_trans a b c⟩
instance : IsAntisymm String (fun a b => strLe a b = true) :=
  ⟨fun a b => strLe_rel_antisymm a b⟩

/-! ## Participant-set lemmas -/

theorem contains_iff_mem {l : List String} {a : String} : l.contains a = true ↔ a ∈ l := by
  unfold List.contains
  exact List.elem_iff

theorem insertPart_mem {p : List String} {x y : String} :
    y ∈ insertPart p x ↔ y ∈ p ∨ y = x := by
  rw [insertPart]
  by_cases hc : p.contains x = true
  · rw [if_pos hc]
    have hx := contains_iff_mem.mp hc
    constructor
    · exact fun h => Or.inl h
    · rintro (h | h)
      · exact h
      · rwa [h]
  · rw [if_neg hc]
    simp [List.mem_append]

theorem insertPart_nodup {p : List String} {x : String} (h : p.Nodup) :
    (insertPart p x).Nodup := by
  rw [insertPart]
  by_cases hc : p.contains x = true
  · rw [if_pos hc]; exact h
  · rw [if_neg hc]
    refine List.Nodup.append h (List.nodup_singleton x) ?_
    intro a ha hx
    rw [List.mem_singleton] at hx
    subst hx
    exact hc (contains_iff_mem.mpr ha)

theorem collectBase_participants (cn : String) (p : ContractInfo × DiagramData)
    (base : Json) : ((collectBase cn p base).2).participants = p.2.participants := by
  rw [collectBase]
  split <;> rfl

theorem collectMember_participants (cn : String) (p : ContractInfo × DiagramData)
    (m : Json) : ((collectMember cn p m).2).participants = p.2.participants := by
  rw [collectMember]
  dsimp only
  split
  · rfl
  · split
    · split <;> rfl
    · rfl

theorem pairFold_participants {f : ContractInfo × DiagramData → Json →
    ContractInfo × DiagramData}
    (hf : ∀ p a, ((f p a).2).participants = p.2.participants) :
    ∀ (l : List Json) (p : ContractInfo × DiagramData),
      ((l.foldl f p).2).participants = p.2.participants := by
  intro l
  induction l with
  | nil => intro p; rfl
  | cons a l ih => intro p; rw [List.foldl_cons, ih, hf]

theorem dataFold_participants {α : Type} {f : DiagramData → α → DiagramData}
    (hf : ∀ d a, (f d a).participants = d.participants) :
    ∀ (l : List α) (d : DiagramData),
      (l.foldl f d).participants = d.participants := by
  intro l
  induction l with
  | nil => intro d; rfl
  | cons a l ih => intro d; rw [List.foldl_cons, ih, hf]

theorem collectNode_participants (ast : Json) (d : DiagramData) (node : Json) :
    (collectNode ast d node).participants =
      if (node.idx "nodeType").asStr == some "ContractDefinition" then
        insertPart d.participants (((node.idx "name").asStr).getD "Unknown")
      else d.participants := by
  rw [collectNode]
  split
  · have h2 := pairFold_participants (collectMember_participants
      (((node.idx "name").asStr).getD "Unknown"))
    have h1 := pairFold_participants (collectBase_participants
      (((node.idx "name").asStr).getD "Unknown"))
    dsimp only
    split <;> split <;> simp [h1, h2]
  · rfl

theorem collect_fold_mem (ast : Json) : ∀ (l : List Json) (d : DiagramData) (x : String),
    x ∈ (l.foldl (collectNode ast) d).participants ↔
      x ∈ d.participants ∨ x ∈ contractNames l := by
  intro l
  induction l with
  | nil => intro d x; simp [contractNames]
  | cons n l ih =>
    intro d x
    rw [List.foldl_cons, ih, collectNode_participants]
    by_cases hn : ((n.idx "nodeType").asStr == some "ContractDefinition") = true
    · rw [if_pos hn, insertPart_mem]
      have heq : (n.idx "nodeType").asStr = some "ContractDefinition" := by
        simpa using hn
      have hcn : contractNames (n :: l) =
          ((n.idx "name").asStr.getD "Unknown") :: contractNames l := by
        simp [contractNames, List.filterMap_cons, heq]
      rw [hcn]
      simp only [List.mem_cons]
      tauto
    · rw [if_neg hn]
      have hne : ¬ ((n.idx "nodeType").asStr = some "ContractDefinition") := by
        simpa using hn
      have hcn : contractNames (n :: l) = contractNames l := by
        simp [contractNames, List.filterMap_cons, hne]
      rw [hcn]

theorem collect_fold_nodup (ast : Json) : ∀ (l : List Json) (d : DiagramData),
    d.participants.Nodup → ((l.foldl (collectNode ast) d).participants).Nodup := by
  intro l
  induction l with
  | nil => intro d h; exact h
  | cons n l ih =>
    intro d h
    rw [List.foldl_cons]
    apply ih
    rw [collectNode_participants]
    split
    · exact insertPart_nodup h
    · exact h

theorem processFnNode_participants (c : String) (d : DiagramData) (cn : Json) :
    (processFnNode c d cn).participants = d.participants := by
  rw [processFnNode]
  dsimp only
  repeat' split
  all_goals rfl

theorem processNode_participants (d : DiagramData) (node : Json) :
    (processNode d node).participants = d.participants := by
  rw [processNode]
  split
  · dsimp only
    split
    · exact dataFold_participants (processFnNode_participants _) _ _
    · rfl
  · rfl

theorem addDefaults_mem {d : DiagramData} {x : String} :
    x ∈ (addDefaults d).participants ↔
      x ∈ d.participants ∨ x ∈ ["User", "Events", "TokenContract"] := by
  rw [addDefaults]
  dsimp only
  rw [insertPart_mem, insertPart_mem, insertPart_mem]
  simp only [List.mem_cons, List.mem_singleton, List.not_mem_nil]
  tauto

theorem addDefaults_nodup {d : DiagramData} (h : d.participants.Nodup) :
    ((addDefaults d).participants).Nodup := by
  rw [addDefaults]
  exact insertPart_nodup (insertPart_nodup (insertPart_nodup h))

theorem extract_flat_eq (l : List Json) :
    extract_contract_info (mkFlat l) =
      .ok (l.foldl processNode
        (addDefaults (l.foldl (collectNode (mkFlat l)) {}))) := by
  rw [extract_contract_info, mkFlat]
  simp [Json.getKey, Json.lookupField, collect_contracts_and_variables,
    process_functions_and_interactions, Json.idx, Json.asArr, Except.bind]
  rfl

theorem partsOfFlat_mem (l : List Json) (x : String) :
    x ∈ partsOfFlat l ↔
      x ∈ contractNames l ∨ x ∈ ["User", "Events", "TokenContract"] := by
  rw [partsOfFlat, extract_flat_eq]
  have h1 : (Except.ok (ε := String) (l.foldl processNode
      (addDefaults (l.foldl (collectNode (mkFlat l)) {})))).toOption.getD {} =
      l.foldl processNode (addDefaults (l.foldl (collectNode (mkFlat l)) {})) := rfl
  rw [h1, dataFold_participants processNode_participants, addDefaults_mem,
    collect_fold_mem]
  have h2 : x ∈ DiagramData.participants {} ↔ False := by
    constructor
    · intro h; exact List.not_mem_nil x h
    · exact False.elim
  tauto

theorem partsOfFlat_nodup (l : List Json) : (partsOfFlat l).Nodup := by
  rw [partsOfFlat, extract_flat_eq]
  have h1 : (Except.ok (ε := String) (l.foldl processNode
      (addDefaults (l.foldl (collectNode (mkFlat l)) {})))).toOption.getD {} =
      l.foldl processNode (addDefaults (l.foldl (collectNode (mkFlat l)) {})) := rfl
  rw [h1, dataFold_participants processNode_participants]
  exact addDefaults_nodup (collect_fold_nodup _ _ _ List.nodup_nil)

theorem contains_eq_of_perm {p1 p2 : List String} (h : p1.Perm p2) (a : String) :
    p1.contains a = p2.contains a := by
  cases hc : p2.contains a with
  | true =>
    exact contains_iff_mem.mpr (h.mem_iff.mpr (contains_iff_mem.mp hc))
  | false =>
    cases hc1 : p1.contains a with
    | true =>
      rw [← hc]
      exact (contains_iff_mem.mpr (h.mem_iff.mp (contains_iff_mem.mp hc1))).symm
    | false => rfl

theorem order_participants_perm {p1 p2 : List String} (h : p1.Perm p2) :
    order_participants p1 = order_participants p2 := by
  rw [order_participants, order_participants]
  have hperm : (List.insertionSort (fun a b => strLe a b = true) p1).Perm
      (List.insertionSort (fun a b => strLe a b = true) p2) :=
    ((List.perm_insertionSort _ p1).trans h).trans
      (List.perm_insertionSort _ p2).symm
  have heq : (List.insertionSort (fun a b => strLe a b = true) p1).filter
        (fun p => p != "User" && p != "Events") =
      (List.insertionSort (fun a b => strLe a b = true) p2).filter
        (fun p => p != "User" && p != "Events") :=
    List.eq_of_perm_of_sorted (hperm.filter _)
      ((List.sorted_insertionSort _ p1).filter _)
      ((List.sorted_insertionSort _ p2).filter _)
  rw [contains_eq_of_perm h "User", contains_eq_of_perm h "Events", heq]

/-! ## Claim theorems -/

unseal extract_type_name processStmt processStmts in
/-- C1: the spec claims extraction-then-render is deterministic (equal input
    JSON and palette flag give byte-identical output), but the renderer
    iterates the `contracts` `HashMap` directly for the function-summary /
    inheritance / type notes, and Rust's `HashMap` iteration order is
    randomized per process: on `abAst` (two contracts, each with a function)
    the two iteration orders of the same map render different byte strings.
    Both orders are permutations of the map's entries, hence admissible runs
    of the same code on the same input. -/
theorem c1_render_depends_on_map_iteration_order :
    abData.contracts.reverse.Perm abData.contracts ∧
    String.intercalate "\n" (renderLines abData abData.contracts false) ≠
      String.intercalate "\n" (renderLines abData abData.contracts.reverse false) := by
  decide

/-- C2 (counterexample): the claim says the diagram for an empty declaration
    array has an empty participant list and no section-title block for user
    interactions; in fact the render contains the "User Interactions"
    section title and participant lines (the three synthetic
    participants). -/
theorem c2_counterexample :
    ¬ (("Note over User: User Interactions" ∉
          renderLines emptyData emptyData.contracts false) ∧
       (∀ l ∈ renderLines emptyData emptyData.contracts false,
          rsStartsWith l "participant " = false)) := by
  decide

/-- C2 (amended): for an empty declaration array the diagram consists of
    exactly the preamble, the theme block, the three synthetic participant
    lines (User, TokenContract, Events), the User-Interactions section-title
    block (with no interaction lines), and the legend; no section-title
    blocks for contract interactions, events or relationships are
    emitted. -/
theorem c2_empty_declarations_render (light : Bool) :
    renderLines emptyData emptyData.contracts light =
      ["```mermaid", "sequenceDiagram",
       "title Smart Contract Interaction Sequence Diagram", "autonumber", ""]
      ++ add_theme_config light
      ++ ["participant User as \"External User\"",
          "participant TokenContract as \"ERC20/ERC721 Tokens\"",
          "participant Events as \"Blockchain Events\"", ""]
      ++ add_section_title "User Interactions" light
      ++ add_legend light
      ++ ["```"] := by
  cases light <;> rfl

/-- C3 (counterexample): a bare call `token.transfer(…)` — member name
    "transfer", target name containing "token" — is claimed to route through
    the synthetic "TokenContract" participant; in fact the earlier
    transfer/send rule wins and the call/return pair names the literal
    target `token`. -/
theorem c3_counterexample :
    process_function_body "C" "f" [mkBareCall "token" "transfer"] =
      ["Note right of C: Transfer tokens or ETH",
       "C->>+token: transfer()",
       "token-->>-C: return (success)"] ∧
    "C->>+TokenContract: transfer()" ∉
      process_function_body "C" "f" [mkBareCall "token" "transfer"] := by
  have h : process_function_body "C" "f" [mkBareCall "token" "transfer"] =
      ["Note right of C: Transfer tokens or ETH",
       "C->>+token: transfer()",
       "token-->>-C: return (success)"] := by
    simp [process_function_body, processStmts, processStmt, mkBareCall, exprStmtLines,
      extractArgStr, Json.idx, Json.getKey, Json.lookupField, Json.asStr,
      get_function_purpose, common_functions, rsContains, rsToLower, listContainsSub,
      listIsPrefix]
  refine ⟨h, ?_⟩
  rw [h]
  decide

unseal extract_type_name in
/-- C5 (counterexample): the claim says `extract_type_name` always returns a
    non-empty string; an `ElementaryTypeName` node whose `name` field is the
    empty string is returned verbatim, i.e. empty. -/
theorem c5_counterexample : extract_type_name elemEmptyName = "" := by rfl

unseal extract_type_name processStmt processStmts in
/-- C6: the Vault round-trip scenario.  The output has no participant line
    for `Ownable`; the model records the `Vault → Ownable` "inherits"
    relationship; the user interactions contain the call line
    `User->>+Vault: deposit(amount: uint256)` immediately followed by the
    bare return line `Vault-->>-User: return`; and the events section
    contains the note `Note over Vault,Vault: Event: Deposited`, which
    mentions `Deposited`. -/
theorem c6_vault_roundtrip :
    (∀ l ∈ vaultOut, rsStartsWith l "participant Ownable" = false) ∧
    ContractRelationship.mk "Vault" "Ownable" "inherits" ∈
      vaultData.contract_relationships ∧
    adjacentIn "User->>+Vault: deposit(amount: uint256)" "Vault-->>-User: return"
      vaultData.user_interactions = true ∧
    "Note over Vault,Vault: Event: Deposited" ∈ vaultOut ∧
    rsContains "Note over Vault,Vault: Event: Deposited" "Deposited" = true := by
  decide

/-- C8 (counterexample): the claim says the type-from-name guess matches
    case-insensitively for every identifier regardless of letter case, so
    "IsActive" would have to yield the same result as its lowercasing
    "isactive" (namely "bool" via the is/has prefix rule); the code's
    `starts_with("is")` check is case-sensitive and "IsActive" falls through
    every rule to "any". -/
theorem c8_counterexample :
    guess_type_from_name "IsActive" = "any" ∧
    guess_type_from_name (rsToLower "IsActive") = "bool" := by
  decide

/-- C8 (amended): `guess_type_from_name` applies its rules in the fixed
    order with the first match winning — but the "is"/"has" prefix rule and
    the "Addr" suffix check are case-sensitive, while the substring rules
    (amount/value/balance, address, id, key) compare on the lowercased
    name.  `typeRules`/`firstMatch` spell out exactly that rule table. -/
theorem c8_rule_table (name : String) :
    guess_type_from_name name = firstMatch typeRules name := by
  rfl

unseal extract_type_name in
/-- C4 (counterexample): for the two-file `multiAst` the code's per-file
    interleaving of pass 1 and pass 2 records a `B → TokenContract`
    "references" relationship (the synthetic participants are already in the
    participant set when file `b.sol` is collected), while "declaration pass
    globally, then body pass globally" (`extract_contract_info_global`, as
    the spec describes) records none — the results differ. -/
theorem c4_counterexample :
    relsOfE (extract_contract_info multiAst) ≠
      relsOfE (extract_contract_info_global multiAst) := by
  decide

/-- C7: the rendered participant ordering is invariant under permutation of
    the top-level declaration order of a flat AST, and it always has the
    shape "User" first, then a sorted middle free of "User"/"Events", then
    "Events" last. -/
theorem c7_participant_order_invariant (l1 l2 : List Json) (hp : l1.Perm l2) :
    order_participants (partsOfFlat l1) = order_participants (partsOfFlat l2) ∧
    ∃ mid, order_participants (partsOfFlat l1) = "User" :: (mid ++ ["Events"]) ∧
      List.Sorted (fun a b => strLe a b = true) mid ∧
      "User" ∉ mid ∧ "Events" ∉ mid := by
  constructor
  · apply order_participants_perm
    apply (List.perm_ext_iff_of_nodup (partsOfFlat_nodup l1)
      (partsOfFlat_nodup l2)).mpr
    intro a
    rw [partsOfFlat_mem, partsOfFlat_mem]
    have hcn : (contractNames l1).Perm (contractNames l2) := by
      rw [contractNames, contractNames]
      exact hp.filterMap _
    have := hcn.mem_iff (a := a)
    tauto
  · refine ⟨(List.insertionSort (fun a b => strLe a b = true)
        (partsOfFlat l1)).filter (fun p => p != "User" && p != "Events"),
      ?_, ?_, ?_, ?_⟩
    · rw [order_participants]
      have hU : (partsOfFlat l1).contains "User" = true :=
        contains_iff_mem.mpr ((partsOfFlat_mem _ _).mpr (Or.inr (by simp)))
      have hE : (partsOfFlat l1).contains "Events" = true :=
        contains_iff_mem.mpr ((partsOfFlat_mem _ _).mpr (Or.inr (by simp)))
      rw [if_pos hU, if_pos hE]
      simp
    · exact (List.sorted_insertionSort _ _).filter _
    · intro hmem
      have := List.of_mem_filter hmem
      simp at this
    · intro hmem
      have := List.of_mem_filter hmem
      simp at this

theorem collect_isOk (a : Json) (d : DiagramData) :
    (collect_contracts_and_variables a d).isOk = !(nodesBad a) := by
  rw [collect_contracts_and_variables, nodesBad]
  cases h : (a.idx "nodes").asArr <;> simp [h, Except.isOk, Except.toBool]

theorem collect_ok_of_nodes {a : Json} {d : DiagramData} {ns : List Json}
    (h : (a.idx "nodes").asArr = some ns) :
    collect_contracts_and_variables a d = .ok (ns.foldl (collectNode a) d) := by
  rw [collect_contracts_and_variables, h]

theorem collect_err_of_nodes {a : Json} {d : DiagramData}
    (h : (a.idx "nodes").asArr = none) :
    collect_contracts_and_variables a d = .error "nodes is not an array" := by
  rw [collect_contracts_and_variables, h]

theorem process_ok_of_nodes {a : Json} {d : DiagramData} {ns : List Json}
    (h : (a.idx "nodes").asArr = some ns) :
    process_functions_and_interactions a d = .ok (ns.foldl processNode d) := by
  rw [process_functions_and_interactions, h]

theorem okBind {α β : Type} (a : α) (f : α → Except String β) :
    ((Except.ok a : Except String α) >>= f) = f a := rfl

theorem processFiles_isOk : ∀ (files : List (String × Json)) (d : DiagramData),
    (processFiles files d).isOk =
      !(files.any (fun kv => match (kv.2).getKey "AST" with
        | some a => nodesBad a
        | none => false)) := by
  intro files
  induction files with
  | nil => intro d; rfl
  | cons kv rest ih =>
    intro d
    rw [processFiles]
    cases hk : (kv.2).getKey "AST" with
    | none => simp [List.any_cons, hk, ih]
    | some a =>
      dsimp only
      cases hn : (a.idx "nodes").asArr with
      | none =>
        rw [collect_err_of_nodes hn]
        have hbad : nodesBad a = true := by rw [nodesBad, hn]; rfl
        simp [List.any_cons, hk, hbad]
        rfl
      | some ns =>
        rw [collect_ok_of_nodes hn]
        have hgood : nodesBad a = false := by rw [nodesBad, hn]; rfl
        have hstep : (do
            let data ← Except.ok (ε := String) (ns.foldl (collectNode a) d)
            let data := addDefaults data
            let data ← process_functions_and_interactions a data
            processFiles rest data) =
            processFiles rest (ns.foldl processNode
              (addDefaults (ns.foldl (collectNode a) d))) := by
          dsimp only
          rw [okBind, process_ok_of_nodes hn, okBind]
        rw [hstep, ih]
        simp [List.any_cons, hk, hgood]

/-- C9: extraction fails exactly on the structural failures — a non-object
    `sources` wrapper, or a `nodes` declaration array that is absent or not
    an array (at the top level for the flat shape, or inside any reached
    file's `AST` for the combined shape); every other input extracts
    successfully, missing leaf fields degrading to placeholders. -/
theorem c9_error_iff_structural (ast : Json) :
    (extract_contract_info ast).isOk = !(structuralBad ast) := by
  rw [extract_contract_info, structuralBad]
  cases hs : ast.getKey "sources" with
  | some sources =>
    dsimp only
    cases ho : sources.asObj with
    | none => rfl
    | some files => exact processFiles_isOk files {}
  | none =>
    dsimp only
    cases hn : (ast.idx "nodes").asArr with
    | none =>
      rw [collect_err_of_nodes hn]
      have hbad : nodesBad ast = true := by rw [nodesBad, hn]; rfl
      rw [hbad]
      rfl
    | some ns =>
      rw [collect_ok_of_nodes hn]
      have hgood : nodesBad ast = false := by rw [nodesBad, hn]; rfl
      have hstep : (do
          let data ← Except.ok (ε := String) (ns.foldl (collectNode ast) {})
          let data := addDefaults data
          process_functions_and_interactions ast data) =
          Except.ok (ns.foldl processNode
            (addDefaults (ns.foldl (collectNode ast) {}))) := by
        dsimp only
        rw [okBind, process_ok_of_nodes hn]
      rw [hstep, hgood]
      rfl

theorem errBind {α β : Type} (e : String) (f : α → Except String β) :
    ((Except.error e : Except String α) >>= f) = Except.error e := rfl

/-- Every relationship in the list is tagged "inherits" or "references"
    (claim C10's invariant). -/
def relsTyped (rels : List ContractRelationship) : Prop :=
  ∀ r ∈ rels, r.relation_type = "inherits" ∨ r.relation_type = "references"

theorem relsTyped_append {rels : List ContractRelationship} {src tgt ty : String}
    (h : relsTyped rels) (hty : ty = "inherits" ∨ ty = "references") :
    relsTyped (rels ++ [⟨src, tgt, ty⟩]) := by
  intro r hr
  rcases List.mem_append.mp hr with h1 | h1
  · exact h r h1
  · rw [List.mem_singleton] at h1
    subst h1
    exact hty

theorem collectBase_relsTyped (cn : String) (p : ContractInfo × DiagramData)
    (base : Json) (h : relsTyped p.2.contract_relationships) :
    relsTyped ((collectBase cn p base).2).contract_relationships := by
  rw [collectBase]
  split
  · exact relsTyped_append h (Or.inl rfl)
  · exact h

theorem collectMember_relsTyped (cn : String) (p : ContractInfo × DiagramData)
    (m : Json) (h : relsTyped p.2.contract_relationships) :
    relsTyped ((collectMember cn p m).2).contract_relationships := by
  rw [collectMember]
  dsimp only
  split
  · exact h
  · split
    · split
      · exact relsTyped_append h (Or.inr rfl)
      · exact h
    · exact h

theorem pairFold_relsTyped {f : ContractInfo × DiagramData → Json →
    ContractInfo × DiagramData}
    (hf : ∀ p a, relsTyped p.2.contract_relationships →
      relsTyped ((f p a).2).contract_relationships) :
    ∀ (l : List Json) (p : ContractInfo × DiagramData),
      relsTyped p.2.contract_relationships →
      relsTyped ((l.foldl f p).2).contract_relationships := by
  intro l
  induction l with
  | nil => intro p h; exact h
  | cons a l ih => intro p h; rw [List.foldl_cons]; exact ih _ (hf _ _ h)

theorem collectNode_relsTyped (ast : Json) (d : DiagramData) (node : Json)
    (h : relsTyped d.contract_relationships) :
    relsTyped ((collectNode ast d node).contract_relationships) := by
  rw [collectNode]
  split
  · dsimp only
    split <;> split
    all_goals
      first
        | exact pairFold_relsTyped (collectMember_relsTyped _)
            _ _ (pairFold_relsTyped (collectBase_relsTyped _) _ _ h)
        | exact pairFold_relsTyped (collectMember_relsTyped _) _ _ h
        | exact pairFold_relsTyped (collectBase_relsTyped _) _ _ h
        | exact h
  · exact h

theorem collectFold_relsTyped (ast : Json) : ∀ (l : List Json) (d : DiagramData),
    relsTyped d.contract_relationships →
    relsTyped ((l.foldl (collectNode ast) d).contract_relationships) := by
  intro l
  induction l with
  | nil => intro d h; exact h
  | cons n l ih =>
    intro d h
    rw [List.foldl_cons]
    exact ih _ (collectNode_relsTyped _ _ _ h)

theorem processFnNode_rels (c : String) (d : DiagramData) (cn : Json) :
    (processFnNode c d cn).contract_relationships = d.contract_relationships := by
  rw [processFnNode]
  dsimp only
  repeat' split
  all_goals rfl

theorem dataFold_rels {α : Type} {f : DiagramData → α → DiagramData}
    (hf : ∀ d a, (f d a).contract_relationships = d.contract_relationships) :
    ∀ (l : List α) (d : DiagramData),
      (l.foldl f d).contract_relationships = d.contract_relationships := by
  intro l
  induction l with
  | nil => intro d; rfl
  | cons a l ih => intro d; rw [List.foldl_cons, ih, hf]

theorem processNode_rels (d : DiagramData) (node : Json) :
    (processNode d node).contract_relationships = d.contract_relationships := by
  rw [processNode]
  split
  · dsimp only
    split
    · exact dataFold_rels (processFnNode_rels _) _ _
    · rfl
  · rfl

theorem processFiles_relsTyped : ∀ (files : List (String × Json))
    (d d' : DiagramData), processFiles files d = .ok d' →
    relsTyped d.contract_relationships → relsTyped d'.contract_relationships := by
  intro files
  induction files with
  | nil =>
    intro d d' h hd
    rw [processFiles] at h
    injection h with h
    subst h
    exact hd
  | cons kv rest ih =>
    intro d d' h hd
    rw [processFiles] at h
    cases hk : (kv.2).getKey "AST" with
    | none =>
      rw [hk] at h
      exact ih _ _ h hd
    | some a =>
      rw [hk] at h
      dsimp only at h
      cases hn : (a.idx "nodes").asArr with
      | none =>
        rw [collect_err_of_nodes hn, errBind] at h
        simp at h
      | some ns =>
        rw [collect_ok_of_nodes hn, okBind, process_ok_of_nodes hn, okBind] at h
        apply ih _ _ h
        rw [dataFold_rels processNode_rels]
        exact collectFold_relsTyped _ _ _ hd

theorem extract_relsTyped (ast : Json) (d : DiagramData)
    (h : extract_contract_info ast = .ok d) :
    relsTyped d.contract_relationships := by
  rw [extract_contract_info] at h
  cases hs : ast.getKey "sources" with
  | some sources =>
    rw [hs] at h
    dsimp only at h
    cases ho : sources.asObj with
    | none => rw [ho] at h; simp at h
    | some files =>
      rw [ho] at h
      refine processFiles_relsTyped files {} d h ?_
      intro r hr
      exact absurd hr (List.not_mem_nil r)
  | none =>
    rw [hs] at h
    dsimp only at h
    cases hn : (ast.idx "nodes").asArr with
    | none =>
      rw [collect_err_of_nodes hn, errBind] at h
      simp at h
    | some ns =>
      rw [collect_ok_of_nodes hn, okBind, process_ok_of_nodes hn] at h
      injection h with h
      subst h
      rw [dataFold_rels processNode_rels]
      refine collectFold_relsTyped _ _ _ ?_
      intro r hr
      exact absurd hr (List.not_mem_nil r)

theorem interactsStep_skip (parts : List String) (acc : List String × List String)
    (rel : ContractRelationship)
    (h : rel.relation_type = "inherits" ∨ rel.relation_type = "references") :
    interactsStep parts acc rel = acc := by
  rw [interactsStep]
  rcases h with h | h <;> rw [h] <;> simp

theorem interactsFold_skip (parts : List String) :
    ∀ (rels : List ContractRelationship) (acc : List String × List String),
      relsTyped rels → rels.foldl (interactsStep parts) acc = acc := by
  intro rels
  induction rels with
  | nil => intro acc _; rfl
  | cons r rest ih =>
    intro acc h
    rw [List.foldl_cons, interactsStep_skip parts acc r (h r (List.mem_cons_self r rest))]
    exact ih acc (fun x hx => h x (List.mem_cons_of_mem r hx))

theorem interactsLines_empty (rels : List ContractRelationship)
    (parts : List String) (h : relsTyped rels) : interactsLines rels parts = [] := by
  rw [interactsLines, interactsFold_skip parts rels ([], []) h]

/-- C10: every relationship extraction records is tagged "inherits" or
    "references" — none is ever tagged "calls" — and so the renderer's
    deduplicated "Interacts with" subsection is empty for every extracted
    model. -/
theorem c10_no_calls_relationships (ast : Json) (d : DiagramData)
    (h : extract_contract_info ast = .ok d) :
    (∀ r ∈ d.contract_relationships,
      r.relation_type = "inherits" ∨ r.relation_type = "references") ∧
    interactsLines d.contract_relationships d.participants = [] := by
  have ht := extract_relsTyped ast d h
  exact ⟨ht, interactsLines_empty _ _ ht⟩

unseal extract_type_name processStmt processStmts in
/-- C10 (witness): the invariant applied to the Vault scenario, whose
    extraction records an "inherits" and a "references" relationship. -/
theorem c10_witness :
    (∀ r ∈ vaultData.contract_relationships,
      r.relation_type = "inherits" ∨ r.relation_type = "references") ∧
    interactsLines vaultData.contract_relationships vaultData.participants = [] :=
  c10_no_calls_relationships vaultAst vaultData (by rfl)

/-- C7 (witness): the invariance theorem applied to two concrete two-contract
    declaration lists that are permutations (swap) of one another. -/
theorem c7_witness :
    order_participants (partsOfFlat [nodeC1, nodeC2]) =
      order_participants (partsOfFlat [nodeC2, nodeC1]) ∧
    ∃ mid, order_participants (partsOfFlat [nodeC1, nodeC2]) =
        "User" :: (mid ++ ["Events"]) ∧
      List.Sorted (fun a b => strLe a b = true) mid ∧
      "User" ∉ mid ∧ "Events" ∉ mid :=
  c7_participant_order_invariant [nodeC1, nodeC2] [nodeC2, nodeC1]
    (List.Perm.swap nodeC2 nodeC1 [])

/-- C3 (amended): a bare call whose member name is "transferFrom" on an
    identifier target whose name contains "token" (case-insensitively) is
    routed through the synthetic "TokenContract" participant — call line to
    TokenContract and success-return from TokenContract — preceded by the
    "Transfer tokens or ETH" purpose note; member name "transfer" never
    reaches this rule (it is captured by the earlier transfer/send rule, see
    the counterexample). -/
theorem c3_transferFrom_token_routing (c f target : String)
    (h : rsContains (rsToLower target) "token" = true) :
    process_function_body c f [mkBareCall target "transferFrom"] =
      ["Note right of " ++ c ++ ": Transfer tokens or ETH",
       c ++ "->>+TokenContract: transferFrom()",
       "TokenContract-->>-" ++ c ++ ": return (success)"] := by
  have hp : get_function_purpose "transferFrom" = some "Transfer tokens or ETH" := by
    decide
  simp [process_function_body, processStmts, processStmt, mkBareCall, exprStmtLines,
    extractArgStr, Json.idx, Json.getKey, Json.lookupField, Json.asStr, hp, h,
    String.append_assoc]

/-- C3 (witness): the routing theorem at the concrete target "MyToken". -/
theorem c3_witness :
    rsContains (rsToLower "MyToken") "token" = true ∧
    process_function_body "C" "f" [mkBareCall "MyToken" "transferFrom"] =
      ["Note right of C: Transfer tokens or ETH",
       "C->>+TokenContract: transferFrom()",
       "TokenContract-->>-C: return (success)"] :=
  ⟨by decide, c3_transferFrom_token_routing "C" "f" "MyToken" (by decide)⟩

/-- C4 (amended): extraction interleaves the two passes per file (each
    file's declarations are collected, the synthetic participants added, and
    that file's bodies processed, before the next file is touched); for a
    flat single-file AST — no `sources` wrapper — this coincides with
    running the declaration pass globally and then the body pass globally. -/
theorem c4_flat_two_pass (ast : Json) (h : ast.getKey "sources" = none) :
    extract_contract_info ast = extract_contract_info_global ast := by
  rw [extract_contract_info, extract_contract_info_global, h]

/-- C4 (witness): the flat-shape agreement at the empty flat AST. -/
theorem c4_witness :
    emptyAst.getKey "sources" = none ∧
    extract_contract_info emptyAst = extract_contract_info_global emptyAst :=
  ⟨rfl, c4_flat_two_pass emptyAst rfl⟩

/-! ### C5: non-emptiness of `extract_type_name` on empty-string-free nodes -/

theorem lookupField_mem {fs : List (String × Json)} {k : String} {v : Json}
    (h : Json.lookupField fs k = some v) : ∃ k', (k', v) ∈ fs := by
  induction fs with
  | nil => simp [Json.lookupField] at h
  | cons p rest ih =>
    obtain ⟨k1, v1⟩ := p
    rw [Json.lookupField] at h
    by_cases hk : (k1 == k) = true
    · rw [if_pos hk] at h
      injection h with h
      subst h
      exact ⟨k1, List.mem_cons_self _ _⟩
    · rw [if_neg hk] at h
      obtain ⟨k', hm⟩ := ih h
      exact ⟨k', List.mem_cons_of_mem _ hm⟩

theorem noEmpty_obj_val {fs : List (String × Json)} {k' : String} {v : Json}
    (h : noEmptyStrLeaf (.obj fs) = true) (hm : (k', v) ∈ fs) :
    noEmptyStrLeaf v = true := by
  rw [noEmptyStrLeaf] at h
  induction fs with
  | nil => cases hm
  | cons p rest ih =>
    obtain ⟨k1, v1⟩ := p
    rw [noEmptyObj, Bool.and_eq_true] at h
    rcases List.mem_cons.mp hm with h1 | h1
    · injection h1 with h1a h1b
      rw [h1b]
      exact h.1
    · exact ih h.2 h1

theorem noEmpty_getKey {j : Json} {k : String} {v : Json}
    (hj : noEmptyStrLeaf j = true) (h : j.getKey k = some v) :
    noEmptyStrLeaf v = true := by
  cases j <;> simp [Json.getKey] at h
  obtain ⟨k', hm⟩ := lookupField_mem h
  exact noEmpty_obj_val hj hm

theorem noEmpty_null : noEmptyStrLeaf .null = true := rfl

theorem noEmpty_idx {j : Json} (hj : noEmptyStrLeaf j = true) (k : String) :
    noEmptyStrLeaf (j.idx k) = true := by
  rw [Json.idx]
  cases h : j.getKey k with
  | none => exact noEmpty_null
  | some v => simpa [Option.getD] using noEmpty_getKey hj h

theorem noEmpty_asStr {v : Json} {s : String} (hv : noEmptyStrLeaf v = true)
    (h : v.asStr = some s) : s ≠ "" := by
  cases v <;> simp [Json.asStr] at h
  subst h
  rw [noEmptyStrLeaf] at hv
  simpa using hv

theorem str_append_ne_empty (a b : String) (hb : b ≠ "") : a ++ b ≠ "" := by
  intro hab
  apply hb
  have hd : a.data ++ b.data = [] := by
    rw [← String.data_append a b, hab]
  have hbd : b.data = [] := (List.append_eq_nil.mp hd).2
  cases b
  simp_all

theorem getD_ne_empty {o : Option String}
    (ho : ∀ s, o = some s → s ≠ "") : o.getD "unknown" ≠ "" := by
  cases h : o with
  | none => simp [Option.getD]
  | some s =>
    have := ho s h
    simpa [Option.getD] using this

/-- C5 (amended): `extract_type_name` is total by construction (it is a
    terminating function on the JSON tree), and on every type-description
    node none of whose string leaves is the empty string — every
    compiler-produced node — the returned string is non-empty, with absence
    of information degrading to "unknown".  (An adversarial node carrying an
    empty `name`/`typeString` string is returned verbatim; see the
    counterexample.) -/
theorem c5_type_resolver_nonempty (t : Json) (h : noEmptyStrLeaf t = true) :
    extract_type_name t ≠ "" := by
  rw [extract_type_name.eq_def]
  split
  case isFalse => simp
  case isTrue ht =>
    dsimp only
    split
    · -- ElementaryTypeName
      exact getD_ne_empty (fun s hs => noEmpty_asStr (noEmpty_idx h "name") hs)
    · split
      · -- UserDefinedTypeName with pathNode
        split
        · apply getD_ne_empty
          intro s hs
          rcases (Option.orElse_eq_some' _ _ _).mp hs with h1 | ⟨h1, h2⟩
          · exact noEmpty_asStr (noEmpty_idx (noEmpty_idx h "pathNode") "name") h1
          · exact noEmpty_asStr (noEmpty_idx h "name") h2
        · exact getD_ne_empty (fun s hs => noEmpty_asStr (noEmpty_idx h "name") hs)
      · split
        · -- ArrayTypeName
          split
          · split
            · exact str_append_ne_empty _ _ (by simp)
            · split
              · exact str_append_ne_empty _ _ (by simp)
              · exact str_append_ne_empty _ _ (by simp)
          · exact str_append_ne_empty _ _ (by simp)
        · split
          · -- Mapping
            exact str_append_ne_empty _ _ (by simp)
          · split
            · -- TupleType
              split
              · exact str_append_ne_empty _ _ (by simp)
              · simp
            · split
              · -- FunctionTypeName
                simp
              · split
                · -- AddressType
                  split <;> simp
                · -- default: typeDescriptions.typeString
                  split
                  · rename_i hstr
                    rcases Option.bind_eq_some.mp hstr with ⟨mid, hmid, hstr2⟩
                    rcases Option.bind_eq_some.mp hmid with ⟨td, htd, hts⟩
                    exact noEmpty_asStr
                      (noEmpty_getKey (noEmpty_getKey h htd) hts) hstr2
                  · simp

/-- C5 (witness): the non-emptiness theorem at a concrete `uint256`
    elementary type node. -/
theorem c5_witness :
    noEmptyStrLeaf uintNode = true ∧ extract_type_name uintNode ≠ "" :=
  ⟨by rfl, c5_type_resolver_nonempty uintNode (by rfl)⟩

end Sol2Seq
